import Mathlib

/-!
Shallow embedding of the weather-bot core (`src/weather_service.py`,
`src/config.py`) and proofs of the specification claims about it.

The embedding models:
* `_make_request` — the bounded-retry HTTP loop (transport abstracted as a
  function from attempt index to the attempt's outcome, and the observable
  behaviour recorded as a trace of issued attempts and 1-second sleeps);
* `_format_current_weather` — field extraction with Python `KeyError` caught
  (returning the empty dict) and `IndexError` uncaught;
* `_format_forecast_data` — the per-day grouping/aggregation of forecast
  samples (Python `dict` modelled as an insertion-ordered association list);
* `get_current_weather` / `get_forecast` — the callers gluing the two.

Numbers read from JSON are modelled as exact rationals; Python's `round`
(round-half-to-even) is modelled by `pyRound`.
-/

namespace WeatherBot

/-- Python exceptions relevant to the modelled code paths. -/
inductive PyExn where
  | keyError
  | indexError
deriving DecidableEq, Repr

/-- A Python `Optional[Dict]` result as returned by the service functions:
`None`, the empty dict `{}` (the formatting-failure result), or a populated
record. -/
inductive PyValue (α : Type) where
  | pyNone
  | emptyDict
  | val (a : α)
deriving DecidableEq, Repr

/-- Outcome of a single HTTP attempt inside `_make_request`: an HTTP response
with a status code and (parsed JSON) body, or one of the caught exception
classes (`asyncio.TimeoutError`, `aiohttp.ClientError`, any other
`Exception`). -/
inductive Attempt (α : Type) where
  | response (status : Nat) (body : α)
  | timeout
  | clientError
  | otherError
deriving DecidableEq, Repr

/-- Observable events of one `_make_request` run: issuing the `i`-th attempt
(0-based) and the `await asyncio.sleep(1)` between attempts. -/
inductive Ev where
  | att (i : Nat)
  | sleep1
deriving DecidableEq, Repr

namespace Config

/-- `Config.request_timeout` (src/config.py line 31). -/
def request_timeout : Nat := 10

/-- `Config.max_retries` (src/config.py line 32). -/
def max_retries : Nat := 3

end Config

/-- One iteration of the `_make_request` loop body (src/weather_service.py
lines 49-64): `some r` means the function returns `r` immediately
(HTTP 200 returns the body, HTTP 404 returns `None`); `none` means the
attempt failed retryably (other status, or a caught exception) and the loop
continues. -/
def attemptStep {α : Type} (a : Attempt α) : Option (Option α) :=
  match a with
  | .response status body =>
      if status = 200 then some (some body)
      else if status = 404 then some none
      else none
  | .timeout => none
  | .clientError => none
  | .otherError => none

/-- The retry loop of `_make_request` from attempt index `i` up to
`max_retries` (src/weather_service.py lines 47-69), returning the event
trace and the final value.  A 1-second sleep is performed after a retryable
failure iff `i < max_retries - 1`. -/
def runFrom {α : Type} (max_retries : Nat) (transport : Nat → Attempt α)
    (i : Nat) : List Ev × Option α :=
  if i < max_retries then
    match attemptStep (transport i) with
    | some r => ([.att i], r)
    | none =>
        let tail := runFrom max_retries transport (i + 1)
        (.att i :: ((if i < max_retries - 1 then [Ev.sleep1] else []) ++ tail.1),
          tail.2)
  else ([], none)
termination_by max_retries - i

/-- `WeatherService._make_request` (src/weather_service.py lines 34-69) over
an abstract transport: the event trace and the returned value
(`some body` on HTTP 200, `none` on HTTP 404 or after exhausting retries). -/
def make_request {α : Type} (max_retries : Nat) (transport : Nat → Attempt α) :
    List Ev × Option α :=
  runFrom max_retries transport 0

/-- An attempt outcome is retryable when it is a non-200/non-404 HTTP status,
a timeout, or a connection-level/other failure (the spec's transient-error
class). -/
def retryableB {α : Type} : Attempt α → Bool
  | .response status _ => status != 200 && status != 404
  | .timeout => true
  | .clientError => true
  | .otherError => true

/-- Python's built-in `round` to an integer: round half to even
(banker's rounding), modelled exactly on rationals. -/
def pyRound (q : Rat) : Int :=
  let f : Int := q.floor
  if q - f < 1 / 2 then f
  else if 1 / 2 < q - f then f + 1
  else if f % 2 = 0 then f else f + 1

/-- Python's `round(x, 1)`: round to one decimal place, half to even. -/
def pyRound1 (q : Rat) : Rat := (pyRound (q * 10) : Rat) / 10

/-- Character-by-character worker for Python's `str.title()`: an alphabetic
character is upper-cased when the previous character was not alphabetic and
lower-cased otherwise. -/
def pyTitleAux : List Char → Bool → List Char
  | [], _ => []
  | c :: cs, prevAlpha =>
      (if c.isAlpha then (if prevAlpha then c.toLower else c.toUpper) else c)
        :: pyTitleAux cs c.isAlpha

/-- Python's `str.title()` (ASCII case mapping). -/
def pyTitle (s : String) : String := ⟨pyTitleAux s.data false⟩

/-- One 3-hour forecast sample (an element of the provider's `list`), with
the fields `_format_forecast_data` reads: `dt`, `main.temp`,
`main.humidity`, `wind.speed`, `weather[0].main/description/icon`.
The claims quantify over well-formed sample payloads, so these fields are
modelled as present. -/
structure Sample where
  dt : Int
  temp : Rat
  humidity : Rat
  wind_speed : Rat
  weather_main : String
  description : String
  icon : String
deriving DecidableEq, Repr, Inhabited

/-- The per-day accumulator dict built by the grouping loop of
`_format_forecast_data` (src/weather_service.py lines 147-164).  `date` is
the stored `datetime` of the day's first sample, modelled by that sample's
unix timestamp. -/
structure DayAcc where
  date : Int
  temp_min : Rat
  temp_max : Rat
  descriptions : List String
  humidity : List Rat
  wind_speeds : List Rat
  main_weather : String
  icon : String
deriving DecidableEq, Repr, Inhabited

/-- The `'%Y-%m-%d'` date key of a sample: two samples receive the same key
iff their timestamps fall on the same calendar day.  Modelled as the epoch
day number (timezone fixed to UTC). -/
def dayKey (s : Sample) : Int := s.dt.fdiv 86400

/-- The fresh accumulator created when a date key is first seen
(src/weather_service.py lines 147-157). -/
def initAcc (s : Sample) : DayAcc :=
  { date := s.dt
    temp_min := s.temp
    temp_max := s.temp
    descriptions := []
    humidity := []
    wind_speeds := []
    main_weather := s.weather_main
    icon := s.icon }

/-- The unconditional per-sample update of a day's accumulator
(src/weather_service.py lines 159-164). -/
def updateAcc (a : DayAcc) (s : Sample) : DayAcc :=
  { a with
    temp_min := min a.temp_min s.temp
    temp_max := max a.temp_max s.temp
    descriptions := a.descriptions ++ [s.description]
    humidity := a.humidity ++ [s.humidity]
    wind_speeds := a.wind_speeds ++ [s.wind_speed] }

/-- Replace the value of the first entry with the given key in an
insertion-ordered association list (Python `dict` item assignment on an
existing key keeps its position). -/
def updateEntry : List (Int × DayAcc) → Int → Sample → List (Int × DayAcc)
  | [], _, _ => []
  | (k', a) :: rest, k, s =>
      if k' = k then (k', updateAcc a s) :: rest
      else (k', a) :: updateEntry rest k s

/-- Processing of one sample by the grouping loop: create the day's
accumulator if its key is new (appended at the end, as Python dicts preserve
insertion order), then apply the unconditional update. -/
def insertSample (acc : List (Int × DayAcc)) (s : Sample) : List (Int × DayAcc) :=
  let k := dayKey s
  let acc' := if (acc.lookup k).isSome then acc else acc ++ [(k, initAcc s)]
  updateEntry acc' k s

/-- The complete grouping pass of `_format_forecast_data` over the sample
list (src/weather_service.py lines 143-164). -/
def groupDays (samples : List Sample) : List (Int × DayAcc) :=
  samples.foldl insertSample []

/-- `description_counts`: the occurrence-count dict of a day's descriptions
(src/weather_service.py lines 175-177), an existing key incremented in
place, a new key appended with count 1. -/
def incrEntry : List (String × Nat) → String → List (String × Nat)
  | [], d => [(d, 1)]
  | (d', n) :: rest, d =>
      if d' = d then (d', n + 1) :: rest else (d', n) :: incrEntry rest d

/-- `max(description_counts.items(), key=lambda x: x[1])[0]`
(src/weather_service.py line 178): the first key of maximal count, in
insertion order (Python's `max` keeps the earliest maximal element).  The
empty case is unreachable on the code's inputs (`max` on an empty iterable
raises); it is mapped to `""`. -/
def mostCommon (descs : List String) : String :=
  match descs.foldl incrEntry [] with
  | [] => ""
  | c :: rest =>
      (rest.foldl (fun best p => if best.2 < p.2 then p else best) c).1

/-- A finalized per-day forecast record (src/weather_service.py
lines 167-178): the accumulator after rounding, averaging and description
selection. -/
structure DailyForecast where
  date : Int
  temp_min : Int
  temp_max : Int
  avg_humidity : Int
  avg_wind_speed : Rat
  description : String
  icon : String
  main_weather : String
deriving DecidableEq, Repr

/-- The finalization step applied to each day's accumulator
(src/weather_service.py lines 167-178).  The division is by the number of
collected readings, which is positive for every group the loop creates. -/
def finalizeDay (a : DayAcc) : DailyForecast :=
  { date := a.date
    temp_min := pyRound a.temp_min
    temp_max := pyRound a.temp_max
    avg_humidity := pyRound (a.humidity.sum / (a.humidity.length : Rat))
    avg_wind_speed := pyRound1 (a.wind_speeds.sum / (a.wind_speeds.length : Rat))
    description := pyTitle (mostCommon a.descriptions)
    icon := a.icon
    main_weather := a.main_weather }

/-- The `city` object of a forecast payload (`city.name`, `city.country`). -/
structure CityInfo where
  name : String
  country : String
deriving DecidableEq, Repr

/-- A forecast payload as read by `_format_forecast_data`: the top-level
`city` and `list` keys, each possibly missing. -/
structure ForecastBody where
  city : Option CityInfo
  list : Option (List Sample)
deriving DecidableEq, Repr

/-- The dict returned by `_format_forecast_data` on success. -/
structure ForecastRecord where
  city : String
  country : String
  forecasts : List DailyForecast
deriving DecidableEq, Repr

/-- `WeatherService._format_forecast_data` (src/weather_service.py lines
134-188): grouping, finalization, and truncation to the first 5 day groups;
a missing `city` or `list` key raises `KeyError`, caught and turned into the
empty dict. -/
def format_forecast_data (b : ForecastBody) : PyValue ForecastRecord :=
  match b.city, b.list with
  | some ci, some samples =>
      .val { city := ci.name
             country := ci.country
             forecasts := ((groupDays samples).map (fun p => finalizeDay p.2)).take 5 }
  | _, _ => .emptyDict

/-- The forecast body standing for the empty dict (Python truthiness of the
`data` returned by `_make_request`). -/
def emptyForecastBody : ForecastBody := ⟨none, none⟩

/-- `WeatherService.get_forecast` (src/weather_service.py lines 88-103):
run `_make_request`, and format the data when it is truthy, returning `None`
otherwise. -/
def get_forecast (max_retries : Nat) (transport : Nat → Attempt ForecastBody) :
    List Ev × PyValue ForecastRecord :=
  let r := make_request max_retries transport
  match r.2 with
  | some d => if d ≠ emptyForecastBody then (r.1, format_forecast_data d)
              else (r.1, .pyNone)
  | none => (r.1, .pyNone)

/-- The `main` object of a current-weather payload, each field possibly
missing. -/
structure MainBlock where
  temp : Option Rat
  feels_like : Option Rat
  humidity : Option Rat
  pressure : Option Rat
deriving DecidableEq, Repr

/-- One element of the `weather` array. -/
structure WeatherItem where
  main : Option String
  description : Option String
  icon : Option String
deriving DecidableEq, Repr

/-- The `sys` object of a current-weather payload. -/
structure SysBlock where
  country : Option String
  sunrise : Option Int
  sunset : Option Int
deriving DecidableEq, Repr

/-- The `wind` object (read with `.get`, so its fields default to 0). -/
structure WindBlock where
  speed : Option Rat
  deg : Option Rat
deriving DecidableEq, Repr

/-- The `clouds` object (read with `.get`). -/
structure CloudsBlock where
  all : Option Rat
deriving DecidableEq, Repr

/-- A current-weather payload as read by `_format_current_weather`
(src/weather_service.py lines 105-132), each key possibly missing. -/
structure CurrentBody where
  name : Option String
  main : Option MainBlock
  weather : Option (List WeatherItem)
  wind : Option WindBlock
  clouds : Option CloudsBlock
  visibility : Option Int
  sys : Option SysBlock
  timezone : Option Int
deriving DecidableEq, Repr

/-- The dict returned by `_format_current_weather` on success.  The
`datetime.fromtimestamp` values are modelled by their unix timestamps. -/
structure CurrentRecord where
  city : String
  country : String
  temperature : Int
  feels_like : Int
  description : String
  icon : String
  humidity : Rat
  pressure : Rat
  wind_speed : Rat
  wind_direction : Rat
  cloudiness : Rat
  visibility : Int
  sunrise : Int
  sunset : Int
  timezone : Int
deriving DecidableEq, Repr

/-- Python `d[key]`: a missing key raises `KeyError`. -/
def keyErr {α : Type} : Option α → Except PyExn α
  | some a => .ok a
  | none => .error .keyError

/-- Python `lst[0]`: an empty list raises `IndexError`. -/
def idx0 {α : Type} : List α → Except PyExn α
  | [] => .error .indexError
  | w :: _ => .ok w

/-- The `try` body of `_format_current_weather` (src/weather_service.py
lines 107-129), with lookups performed in source evaluation order. -/
def format_current_weather_tryBody (d : CurrentBody) : Except PyExn CurrentRecord := do
  let main ← keyErr d.main
  let weather ← (keyErr d.weather) >>= idx0
  let wind := d.wind.getD ⟨none, none⟩
  let clouds := d.clouds.getD ⟨none⟩
  let city ← keyErr d.name
  let country ← (keyErr d.sys) >>= fun sys => keyErr sys.country
  let temperature ← keyErr main.temp
  let feels_like ← keyErr main.feels_like
  let description ← keyErr weather.description
  let icon ← keyErr weather.icon
  let humidity ← keyErr main.humidity
  let pressure ← keyErr main.pressure
  let sunrise ← (keyErr d.sys) >>= fun sys => keyErr sys.sunrise
  let sunset ← (keyErr d.sys) >>= fun sys => keyErr sys.sunset
  let timezone ← keyErr d.timezone
  return { city := city
           country := country
           temperature := pyRound temperature
           feels_like := pyRound feels_like
           description := pyTitle description
           icon := icon
           humidity := humidity
           pressure := pressure
           wind_speed := wind.speed.getD 0
           wind_direction := wind.deg.getD 0
           cloudiness := clouds.all.getD 0
           visibility := (d.visibility.getD 0).fdiv 1000
           sunrise := sunrise
           sunset := sunset
           timezone := timezone }

/-- `WeatherService._format_current_weather` (src/weather_service.py lines
105-132): the `try` body with `except KeyError: return {}`; any other
exception (in particular the `IndexError` from `data['weather'][0]` on an
empty array) propagates. -/
def format_current_weather (d : CurrentBody) :
    Except PyExn (PyValue CurrentRecord) :=
  match format_current_weather_tryBody d with
  | .ok r => .ok (.val r)
  | .error .keyError => .ok .emptyDict
  | .error e => .error e

/-- The current-weather body standing for the empty dict. -/
def emptyCurrentBody : CurrentBody :=
  ⟨none, none, none, none, none, none, none, none⟩

/-- `WeatherService.get_current_weather` (src/weather_service.py lines
71-86): run `_make_request`, and format the data when it is truthy,
returning `None` otherwise. -/
def get_current_weather (max_retries : Nat)
    (transport : Nat → Attempt CurrentBody) :
    List Ev × Except PyExn (PyValue CurrentRecord) :=
  let r := make_request max_retries transport
  match r.2 with
  | some d => if d ≠ emptyCurrentBody then (r.1, format_current_weather d)
              else (r.1, .ok .pyNone)
  | none => (r.1, .ok .pyNone)

/-! Specification-side notions used to state the claims. -/

/-- The elements of a list that are not in `seen`, first occurrences only, in
first-encounter order. -/
def newKeys {α : Type} [DecidableEq α] : List α → List α → List α
  | [], _ => []
  | k :: ks, seen =>
      if k ∈ seen then newKeys ks seen else k :: newKeys ks (seen ++ [k])

/-- The distinct elements of a list in first-encounter order. -/
def dedupFirst {α : Type} [DecidableEq α] (l : List α) : List α := newKeys l []

/-- The minimum of a list of rationals (0 on the empty list, which is never
used). -/
def listMin : List Rat → Rat
  | [] => 0
  | x :: xs => xs.foldl min x

/-- The maximum of a list of rationals (0 on the empty list, which is never
used). -/
def listMax : List Rat → Rat
  | [] => 0
  | x :: xs => xs.foldl max x

/-- The arithmetic mean of a list of rationals. -/
def mean (l : List Rat) : Rat := l.sum / (l.length : Rat)

/-- The most frequent element of a list, ties broken in favour of the
element first encountered ("" on the empty list, which is never used). -/
def specMode (l : List String) : String :=
  (dedupFirst l).foldl
    (fun best d => if l.count best < l.count d then d else best)
    ((dedupFirst l).headD "")

/-- The specification's per-day summary of one day's samples: minimum and
maximum temperature rounded, rounded mean humidity, mean wind speed rounded
to one decimal, the mode description title-cased, and the first sample's
icon, weather kind and timestamp. -/
def daySummary (ss : List Sample) : DailyForecast :=
  { date := (ss.headD default).dt
    temp_min := pyRound (listMin (ss.map (fun s => s.temp)))
    temp_max := pyRound (listMax (ss.map (fun s => s.temp)))
    avg_humidity := pyRound (mean (ss.map (fun s => s.humidity)))
    avg_wind_speed := pyRound1 (mean (ss.map (fun s => s.wind_speed)))
    description := pyTitle (specMode (ss.map (fun s => s.description)))
    icon := (ss.headD default).icon
    main_weather := (ss.headD default).weather_main }

/-- A required current-weather field (in the claim's list) is missing from
the body as an absent key: `main.temp`, `main.feels_like`, `main.humidity`,
`main.pressure`, `weather[0].description`, `weather[0].icon`, `name`,
`sys.country`, `sys.sunrise`, `sys.sunset` or `timezone`. -/
def missingRequiredB (d : CurrentBody) : Bool :=
  d.name.isNone || d.timezone.isNone ||
  (match d.main with
   | none => true
   | some m =>
       m.temp.isNone || m.feels_like.isNone || m.humidity.isNone ||
       m.pressure.isNone) ||
  (match d.weather with
   | none => true
   | some [] => false
   | some (w :: _) => w.description.isNone || w.icon.isNone) ||
  (match d.sys with
   | none => true
   | some sys => sys.country.isNone || sys.sunrise.isNone || sys.sunset.isNone)

/-- The accumulator the grouping loop builds from the (chronologically
listed) samples of one day: the first sample seeds it and every sample,
including the first, is folded in. -/
def buildAccD : List Sample → DayAcc
  | [] => default
  | s :: rest => rest.foldl updateAcc (updateAcc (initAcc s) s)

/-- The effect of one sample on the optional accumulator of its own day:
create it from the sample if absent, then fold the sample in. -/
def dayFold (o : Option DayAcc) (s : Sample) : Option DayAcc :=
  some (updateAcc (o.getD (initAcc s)) s)

/-- A concrete 3-hour sample used to exercise the aggregation on explicit
inputs. -/
def wSample : Sample := ⟨0, 10, 50, 3, "Clouds", "broken clouds", "04d"⟩

/-- A second sample of the same calendar day. -/
def wSampleB : Sample := ⟨10800, 11, 55, 4, "Clouds", "broken clouds", "04d"⟩

/-- A third sample of the same calendar day with a different description. -/
def wSampleC : Sample := ⟨21600, 12, 60, 5, "Clouds", "clear sky", "01d"⟩

/-- The daily summary of the one-sample day `[wSample]`. -/
def wDay : DailyForecast := ⟨0, 10, 10, 50, 3, "Broken Clouds", "04d", "Clouds"⟩

/-- The daily summary of the day `[wSample, wSampleB, wSampleC]`. -/
def wDay3 : DailyForecast := ⟨0, 10, 12, 55, 4, "Broken Clouds", "04d", "Clouds"⟩

/-- The forecast record produced from the one-sample payload. -/
def wRecord1 : ForecastRecord := ⟨"London", "GB", [wDay]⟩

/-- The forecast record produced from the three-sample payload. -/
def wRecord3 : ForecastRecord := ⟨"London", "GB", [wDay3]⟩

/-! Lemmas about the retry loop. -/

theorem runFrom_stop {α : Type} (n : Nat) (t : Nat → Attempt α) (i : Nat)
    (h : ¬ i < n) : runFrom n t i = ([], none) := by
  unfold runFrom
  rw [if_neg h]

theorem runFrom_early {α : Type} (n : Nat) (t : Nat → Attempt α) (i : Nat)
    (r : Option α) (h1 : i < n) (h2 : attemptStep (t i) = some r) :
    runFrom n t i = ([.att i], r) := by
  unfold runFrom
  rw [if_pos h1, h2]

theorem runFrom_retry {α : Type} (n : Nat) (t : Nat → Attempt α) (i : Nat)
    (h1 : i < n) (h2 : attemptStep (t i) = none) :
    runFrom n t i =
      (.att i :: ((if i < n - 1 then [Ev.sleep1] else []) ++
          (runFrom n t (i + 1)).1),
        (runFrom n t (i + 1)).2) := by
  conv_lhs => unfold runFrom
  rw [if_pos h1, h2]

theorem attemptStep_none_of_retryable {α : Type} (a : Attempt α)
    (h : retryableB a = true) : attemptStep a = none := by
  cases a with
  | response status body =>
      simp only [retryableB, Bool.and_eq_true, bne_iff_ne, ne_eq] at h
      simp [attemptStep, h.1, h.2]
  | timeout => rfl
  | clientError => rfl
  | otherError => rfl

theorem runFrom_snd_none {α : Type} (n : Nat) (t : Nat → Attempt α)
    (h : ∀ i, retryableB (t i) = true) (i : Nat) :
    (runFrom n t i).2 = none := by
  have key : ∀ fuel i, n - i ≤ fuel → (runFrom n t i).2 = none := by
    intro fuel
    induction fuel with
    | zero =>
        intro i hle
        rw [runFrom_stop n t i (by omega)]
    | succ f ih =>
        intro i hle
        by_cases hi : i < n
        · rw [runFrom_retry n t i hi (attemptStep_none_of_retryable _ (h i))]
          exact ih (i + 1) (by omega)
        · rw [runFrom_stop n t i hi]
  exact key (n - i) i (Nat.le_refl _)

theorem get_current_weather_snd_of_none (n : Nat)
    (t : Nat → Attempt CurrentBody) (h : (make_request n t).2 = none) :
    (get_current_weather n t).2 = .ok .pyNone := by
  simp only [get_current_weather]
  rw [h]

theorem get_forecast_snd_of_none (n : Nat)
    (t : Nat → Attempt ForecastBody) (h : (make_request n t).2 = none) :
    (get_forecast n t).2 = .pyNone := by
  simp only [get_forecast]
  rw [h]

/-! The claims about the retry client. -/

/-- C1: when every attempt yields a non-200/non-404 status, a timeout or a
connection failure, `_make_request` at the default `max_retries = 3`
performs exactly the trace attempt-sleep-attempt-sleep-attempt (three
attempts, a 1-second delay between attempts 1→2 and 2→3, none after the
last) and returns the Error outcome `None`; for any configured retry count
it likewise returns `None`. -/
theorem claim1_retry_exhaustion {α : Type} (t : Nat → Attempt α)
    (h : ∀ i, retryableB (t i) = true) :
    make_request Config.max_retries t =
      ([.att 0, .sleep1, .att 1, .sleep1, .att 2], none) ∧
    ∀ n, (make_request n t).2 = none := by
  refine ⟨?_, fun n => runFrom_snd_none n t h 0⟩
  show runFrom 3 t 0 = _
  rw [runFrom_retry 3 t 0 (by norm_num) (attemptStep_none_of_retryable _ (h 0)),
      runFrom_retry 3 t 1 (by norm_num) (attemptStep_none_of_retryable _ (h 1)),
      runFrom_retry 3 t 2 (by norm_num) (attemptStep_none_of_retryable _ (h 2)),
      runFrom_stop 3 t 3 (by norm_num)]
  norm_num

theorem claim1_retry_exhaustion_witness :
    make_request Config.max_retries (fun _ => (Attempt.timeout : Attempt Unit)) =
      ([.att 0, .sleep1, .att 1, .sleep1, .att 2], none) :=
  (claim1_retry_exhaustion (fun _ => Attempt.timeout) (fun _ => rfl)).1

/-- C2: when the first attempt yields HTTP 404, `get_current_weather` and
`get_forecast` both return the NotFound outcome `None` after a trace that
contains exactly the first attempt: no further attempt and no retry
delay. -/
theorem claim2_notfound_first_attempt (n : Nat) (hn : 0 < n)
    (tc : Nat → Attempt CurrentBody) (tf : Nat → Attempt ForecastBody)
    (bc : CurrentBody) (bf : ForecastBody)
    (hc : tc 0 = .response 404 bc) (hf : tf 0 = .response 404 bf) :
    get_current_weather n tc = ([.att 0], .ok .pyNone) ∧
    get_forecast n tf = ([.att 0], .pyNone) := by
  have mc : make_request n tc = ([.att 0], none) :=
    runFrom_early n tc 0 none hn (by rw [hc]; rfl)
  have mf : make_request n tf = ([.att 0], none) :=
    runFrom_early n tf 0 none hn (by rw [hf]; rfl)
  constructor
  · simp only [get_current_weather]
    rw [mc]
  · simp only [get_forecast]
    rw [mf]

theorem claim2_notfound_first_attempt_witness :
    get_current_weather 3 (fun _ => Attempt.response 404 emptyCurrentBody) =
      ([.att 0], .ok .pyNone) ∧
    get_forecast 3 (fun _ => Attempt.response 404 emptyForecastBody) =
      ([.att 0], .pyNone) :=
  claim2_notfound_first_attempt 3 (by norm_num) _ _
    emptyCurrentBody emptyForecastBody rfl rfl

/-- C9: when the first two attempts fail retryably and the third returns
HTTP 200 with a body, `_make_request` at max attempts 3 performs all three
attempts (with the two inter-attempt delays) and returns that body, not a
premature failure. -/
theorem claim9_success_after_retries {α : Type} (t : Nat → Attempt α) (d : α)
    (h0 : retryableB (t 0) = true) (h1 : retryableB (t 1) = true)
    (h2 : t 2 = .response 200 d) :
    make_request Config.max_retries t =
      ([.att 0, .sleep1, .att 1, .sleep1, .att 2], some d) := by
  show runFrom 3 t 0 = _
  rw [runFrom_retry 3 t 0 (by norm_num) (attemptStep_none_of_retryable _ h0),
      runFrom_retry 3 t 1 (by norm_num) (attemptStep_none_of_retryable _ h1),
      runFrom_early 3 t 2 (some d) (by norm_num) (by rw [h2]; rfl)]
  norm_num

theorem claim9_success_after_retries_witness :
    make_request Config.max_retries
        (fun i => if i = 2 then Attempt.response 200 () else Attempt.timeout) =
      ([.att 0, .sleep1, .att 1, .sleep1, .att 2], some ()) :=
  claim9_success_after_retries _ () rfl rfl rfl

/-- C10: the NotFound outcome of a 404 and the Error outcome of exhausted
retries are the identical value `None`, so `get_current_weather` and
`get_forecast` return the same result on a 404 run as on a
retries-exhausted run. -/
theorem claim10_notfound_error_identical (n : Nat) (hn : 0 < n)
    (t t' : Nat → Attempt CurrentBody) (bc : CurrentBody)
    (s s' : Nat → Attempt ForecastBody) (bf : ForecastBody)
    (ht : t 0 = .response 404 bc) (ht' : ∀ i, retryableB (t' i) = true)
    (hs : s 0 = .response 404 bf) (hs' : ∀ i, retryableB (s' i) = true) :
    (make_request n t).2 = none ∧ (make_request n t').2 = none ∧
    (get_current_weather n t).2 = (get_current_weather n t').2 ∧
    (get_forecast n s).2 = (get_forecast n s').2 ∧
    (get_current_weather n t).2 = .ok .pyNone ∧
    (get_forecast n s).2 = .pyNone := by
  have m404c : make_request n t = ([.att 0], none) :=
    runFrom_early n t 0 none hn (by rw [ht]; rfl)
  have m404f : make_request n s = ([.att 0], none) :=
    runFrom_early n s 0 none hn (by rw [hs]; rfl)
  have merrc : (make_request n t').2 = none := runFrom_snd_none n t' ht' 0
  have merrf : (make_request n s').2 = none := runFrom_snd_none n s' hs' 0
  have gc : (get_current_weather n t).2 = .ok .pyNone :=
    get_current_weather_snd_of_none n t (by rw [m404c])
  have gc' : (get_current_weather n t').2 = .ok .pyNone :=
    get_current_weather_snd_of_none n t' merrc
  have gf : (get_forecast n s).2 = .pyNone :=
    get_forecast_snd_of_none n s (by rw [m404f])
  have gf' : (get_forecast n s').2 = .pyNone :=
    get_forecast_snd_of_none n s' merrf
  exact ⟨by rw [m404c], merrc, by rw [gc, gc'], by rw [gf, gf'], gc, gf⟩

theorem claim10_notfound_error_identical_witness :
    (make_request 3 (fun _ => Attempt.response 404 emptyCurrentBody)).2 = none ∧
    (make_request 3 (fun _ => (Attempt.timeout : Attempt CurrentBody))).2 = none ∧
    (get_current_weather 3 (fun _ => Attempt.response 404 emptyCurrentBody)).2 =
      (get_current_weather 3 (fun _ => Attempt.timeout)).2 ∧
    (get_forecast 3 (fun _ => Attempt.response 404 emptyForecastBody)).2 =
      (get_forecast 3 (fun _ => Attempt.timeout)).2 ∧
    (get_current_weather 3 (fun _ => Attempt.response 404 emptyCurrentBody)).2 =
      .ok .pyNone ∧
    (get_forecast 3 (fun _ => Attempt.response 404 emptyForecastBody)).2 =
      .pyNone :=
  claim10_notfound_error_identical 3 (by norm_num) _ _ emptyCurrentBody _ _
    emptyForecastBody rfl (fun _ => rfl) rfl (fun _ => rfl)

/-! Generic lemmas about insertion-ordered association lists. -/

theorem lookup_isSome_iff {α β : Type} [BEq α] [LawfulBEq α]
    (l : List (α × β)) (k : α) :
    (l.lookup k).isSome ↔ k ∈ l.map Prod.fst := by
  induction l with
  | nil => simp [List.lookup]
  | cons p rest ih =>
      obtain ⟨k', v⟩ := p
      by_cases h : k = k'
      · subst h
        simp [List.lookup]
      · have hb : (k == k') = false := by simpa using h
        simp [List.lookup, hb, h, ih]

theorem lookup_eq_none_of_not_mem {α β : Type} [BEq α] [LawfulBEq α]
    (l : List (α × β)) (k : α) (h : k ∉ l.map Prod.fst) :
    l.lookup k = none := by
  cases hl : l.lookup k with
  | none => rfl
  | some v => exact absurd ((lookup_isSome_iff l k).mp (by simp [hl])) h

theorem lookup_append_or {α β : Type} [BEq α] (l l' : List (α × β)) (k : α) :
    (l ++ l').lookup k = (l.lookup k).or (l'.lookup k) := by
  induction l with
  | nil => simp [List.lookup]
  | cons p rest ih =>
      obtain ⟨k', v⟩ := p
      cases hb : k == k' <;> simp [List.lookup, hb, ih]

theorem lookup_map_graph {α β : Type} [BEq α] [LawfulBEq α]
    (ks : List α) (f : α → β) (k : α) :
    (ks.map (fun k => (k, f k))).lookup k =
      if k ∈ ks then some (f k) else none := by
  induction ks with
  | nil => simp [List.lookup]
  | cons x ks ih =>
      by_cases h : k = x
      · subst h
        simp [List.lookup]
      · have hb : (k == x) = false := by simpa using h
        simp [List.lookup, hb, h, ih]

theorem assoc_ext {α β : Type} [BEq α] [LawfulBEq α] :
    ∀ (l₁ l₂ : List (α × β)),
      l₁.map Prod.fst = l₂.map Prod.fst → (l₁.map Prod.fst).Nodup →
      (∀ k, l₁.lookup k = l₂.lookup k) → l₁ = l₂
  | [], [], _, _, _ => rfl
  | [], (_, _) :: _, hk, _, _ => by simp at hk
  | (_, _) :: _, [], hk, _, _ => by simp at hk
  | (k₁, v₁) :: t₁, (k₂, v₂) :: t₂, hk, hnd, hl => by
      simp only [List.map_cons, List.cons.injEq] at hk
      obtain ⟨hk12, hkt⟩ := hk
      subst hk12
      have hv : v₁ = v₂ := by
        have := hl k₁
        simpa [List.lookup] using this
      subst hv
      have hnd' : (t₁.map Prod.fst).Nodup := hnd.of_cons
      have hk₁ : k₁ ∉ t₁.map Prod.fst := by
        simpa using (List.nodup_cons.mp hnd).1
      have ht : t₁ = t₂ := by
        refine assoc_ext t₁ t₂ hkt hnd' (fun k => ?_)
        by_cases h : k = k₁
        · subst h
          rw [lookup_eq_none_of_not_mem t₁ k hk₁,
              lookup_eq_none_of_not_mem t₂ k (hkt ▸ hk₁)]
        · have hb : (k == k₁) = false := by simpa using h
          have := hl k
          simpa [List.lookup, hb] using this
      rw [ht]

theorem mem_newKeys {α : Type} [DecidableEq α] :
    ∀ (l seen : List α) (k : α), k ∈ newKeys l seen ↔ (k ∈ l ∧ k ∉ seen)
  | [], _, _ => by simp [newKeys]
  | x :: xs, seen, k => by
      by_cases hx : x ∈ seen
      · rw [newKeys, if_pos hx]
        rw [mem_newKeys xs seen k]
        constructor
        · rintro ⟨h1, h2⟩
          exact ⟨List.mem_cons_of_mem _ h1, h2⟩
        · rintro ⟨h1, h2⟩
          rcases List.mem_cons.mp h1 with h1 | h1
          · exact absurd (h1 ▸ hx) h2
          · exact ⟨h1, h2⟩
      · rw [newKeys, if_neg hx]
        by_cases hk : k = x
        · subst hk
          simp [hx]
        · rw [List.mem_cons]
          rw [mem_newKeys xs (seen ++ [x]) k]
          simp only [List.mem_append, List.mem_singleton]
          constructor
          · rintro (h | ⟨h1, h2⟩)
            · exact absurd h hk
            · exact ⟨List.mem_cons_of_mem _ h1, fun hs => h2 (Or.inl hs)⟩
          · rintro ⟨h1, h2⟩
            rcases List.mem_cons.mp h1 with h1 | h1
            · exact absurd h1 hk
            · exact Or.inr ⟨h1, by tauto⟩

theorem nodup_newKeys {α : Type} [DecidableEq α] :
    ∀ (l seen : List α), (newKeys l seen).Nodup
  | [], _ => by simp [newKeys]
  | x :: xs, seen => by
      by_cases hx : x ∈ seen
      · rw [newKeys, if_pos hx]
        exact nodup_newKeys xs seen
      · rw [newKeys, if_neg hx]
        refine List.nodup_cons.mpr ⟨?_, nodup_newKeys xs (seen ++ [x])⟩
        intro hmem
        exact ((mem_newKeys xs (seen ++ [x]) x).mp hmem).2 (by simp)

/-! Lemmas about the grouping pass. -/

theorem updateEntry_keys (l : List (Int × DayAcc)) (k : Int) (s : Sample) :
    (updateEntry l k s).map Prod.fst = l.map Prod.fst := by
  induction l with
  | nil => rfl
  | cons p rest ih =>
      obtain ⟨k', a⟩ := p
      by_cases h : k' = k <;> simp [updateEntry, h, ih]

theorem lookup_updateEntry_self (l : List (Int × DayAcc)) (k : Int) (s : Sample) :
    (updateEntry l k s).lookup k = (l.lookup k).map (fun a => updateAcc a s) := by
  induction l with
  | nil => simp [updateEntry, List.lookup]
  | cons p rest ih =>
      obtain ⟨k', a⟩ := p
      by_cases h : k' = k
      · subst h
        simp [updateEntry, List.lookup]
      · have hb : (k == k') = false := by simpa using (Ne.symm h)
        simp [updateEntry, h, List.lookup, hb, ih]

theorem lookup_updateEntry_ne (l : List (Int × DayAcc)) (k k' : Int)
    (s : Sample) (h : k' ≠ k) :
    (updateEntry l k s).lookup k' = l.lookup k' := by
  induction l with
  | nil => simp [updateEntry]
  | cons p rest ih =>
      obtain ⟨k'', a⟩ := p
      by_cases h2 : k'' = k
      · subst h2
        have hb : (k' == k'') = false := by simpa using h
        simp [updateEntry, List.lookup, hb]
      · cases hb : k' == k'' <;> simp [updateEntry, h2, List.lookup, hb, ih]

theorem insertSample_keys (acc : List (Int × DayAcc)) (s : Sample) :
    (insertSample acc s).map Prod.fst =
      if dayKey s ∈ acc.map Prod.fst then acc.map Prod.fst
      else acc.map Prod.fst ++ [dayKey s] := by
  unfold insertSample
  by_cases hmem : dayKey s ∈ acc.map Prod.fst
  · have hs : (acc.lookup (dayKey s)).isSome := (lookup_isSome_iff _ _).mpr hmem
    simp [hs, hmem, updateEntry_keys]
  · have hs : ¬(acc.lookup (dayKey s)).isSome := fun h =>
      hmem ((lookup_isSome_iff _ _).mp h)
    simp [hs, hmem, updateEntry_keys]

theorem lookup_insertSample (acc : List (Int × DayAcc)) (s : Sample) (k : Int) :
    (insertSample acc s).lookup k =
      if dayKey s = k then dayFold (acc.lookup k) s else acc.lookup k := by
  simp only [insertSample]
  by_cases hk : dayKey s = k
  · subst hk
    rw [if_pos rfl]
    by_cases hs : (acc.lookup (dayKey s)).isSome
    · obtain ⟨a, ha⟩ := Option.isSome_iff_exists.mp hs
      simp [hs, lookup_updateEntry_self, ha, dayFold]
    · have ha : acc.lookup (dayKey s) = none := Option.not_isSome_iff_eq_none.mp hs
      rw [if_neg hs, lookup_updateEntry_self, lookup_append_or, ha]
      simp [List.lookup, dayFold]
  · rw [if_neg hk]
    by_cases hs : (acc.lookup (dayKey s)).isSome
    · rw [if_pos hs, lookup_updateEntry_ne _ _ _ _ (Ne.symm hk)]
    · have hb : (k == dayKey s) = false := by simpa using (Ne.symm hk)
      rw [if_neg hs, lookup_updateEntry_ne _ _ _ _ (Ne.symm hk), lookup_append_or]
      simp [List.lookup, hb]

theorem foldl_insertSample_keys :
    ∀ (samples : List Sample) (acc : List (Int × DayAcc)),
      (samples.foldl insertSample acc).map Prod.fst =
        acc.map Prod.fst ++ newKeys (samples.map dayKey) (acc.map Prod.fst)
  | [], acc => by simp [newKeys]
  | s :: rest, acc => by
      rw [List.foldl_cons, foldl_insertSample_keys rest (insertSample acc s),
        insertSample_keys, List.map_cons, newKeys]
      by_cases hmem : dayKey s ∈ acc.map Prod.fst
      · rw [if_pos hmem, if_pos hmem]
      · rw [if_neg hmem, if_neg hmem, List.append_assoc]
        rfl

theorem foldl_insertSample_lookup :
    ∀ (samples : List Sample) (acc : List (Int × DayAcc)) (k : Int),
      (samples.foldl insertSample acc).lookup k =
        (samples.filter (fun s => dayKey s == k)).foldl dayFold (acc.lookup k)
  | [], acc, k => by simp
  | s :: rest, acc, k => by
      rw [List.foldl_cons, foldl_insertSample_lookup rest (insertSample acc s) k,
        lookup_insertSample]
      by_cases hk : dayKey s = k
      · have hb : (dayKey s == k) = true := by simpa using hk
        rw [if_pos hk]
        simp only [List.filter_cons, hb, if_true, List.foldl_cons]
      · have hb : (dayKey s == k) = false := by simpa using hk
        rw [if_neg hk]
        simp only [List.filter_cons, hb, Bool.false_eq_true, if_false]

theorem foldl_dayFold_some (ss : List Sample) (a : DayAcc) :
    ss.foldl dayFold (some a) = some (ss.foldl updateAcc a) := by
  induction ss generalizing a with
  | nil => rfl
  | cons s rest ih => simp [dayFold, ih]

theorem foldl_dayFold_none_cons (s : Sample) (rest : List Sample) :
    (s :: rest).foldl dayFold none = some (buildAccD (s :: rest)) := by
  simp [dayFold, buildAccD, foldl_dayFold_some]

/-- The grouping pass produces one entry per distinct date key, in
first-encounter order, whose accumulator is built from exactly the samples
of that key, in order. -/
theorem groupDays_eq (samples : List Sample) :
    groupDays samples =
      (dedupFirst (samples.map dayKey)).map
        (fun k => (k, buildAccD (samples.filter (fun s => dayKey s == k)))) := by
  have hkeys : (groupDays samples).map Prod.fst = dedupFirst (samples.map dayKey) := by
    rw [groupDays, foldl_insertSample_keys]
    simp [dedupFirst]
  refine assoc_ext _ _ ?_ ?_ ?_
  · rw [hkeys, List.map_map]
    simp [Function.comp_def]
  · rw [hkeys]
    exact nodup_newKeys _ _
  · intro k
    rw [groupDays, foldl_insertSample_lookup, lookup_map_graph]
    simp only [List.lookup_nil]
    by_cases hmem : k ∈ samples.map dayKey
    · have hded : k ∈ dedupFirst (samples.map dayKey) :=
        (mem_newKeys _ _ _).mpr ⟨hmem, by simp⟩
      rw [if_pos hded]
      obtain ⟨s, hsmem, hsk⟩ := List.mem_map.mp hmem
      cases hfil : samples.filter (fun s => dayKey s == k) with
      | nil =>
          exfalso
          have : s ∈ samples.filter (fun s => dayKey s == k) :=
            List.mem_filter.mpr ⟨hsmem, by simpa using hsk⟩
          rw [hfil] at this
          exact absurd this (List.not_mem_nil s)
      | cons s0 rest0 => rw [foldl_dayFold_none_cons]
    · have hded : k ∉ dedupFirst (samples.map dayKey) := fun h =>
        hmem ((mem_newKeys _ _ _).mp h).1
      rw [if_neg hded]
      have hfil : samples.filter (fun s => dayKey s == k) = [] := by
        rw [List.filter_eq_nil_iff]
        intro s hs
        simp only [beq_iff_eq]
        exact fun hk => hmem (List.mem_map.mpr ⟨s, hs, hk⟩)
      rw [hfil]
      rfl

theorem foldl_updateAcc_fields (rest : List Sample) (a : DayAcc) :
    rest.foldl updateAcc a =
      { date := a.date
        temp_min := (rest.map (fun s => s.temp)).foldl min a.temp_min
        temp_max := (rest.map (fun s => s.temp)).foldl max a.temp_max
        descriptions := a.descriptions ++ rest.map (fun s => s.description)
        humidity := a.humidity ++ rest.map (fun s => s.humidity)
        wind_speeds := a.wind_speeds ++ rest.map (fun s => s.wind_speed)
        main_weather := a.main_weather
        icon := a.icon } := by
  induction rest generalizing a with
  | nil => simp
  | cons s rest ih =>
      simp only [List.foldl_cons, List.map_cons]
      rw [ih]
      simp [updateAcc]

theorem buildAccD_cons (s : Sample) (rest : List Sample) :
    buildAccD (s :: rest) =
      { date := s.dt
        temp_min := (rest.map (fun s => s.temp)).foldl min s.temp
        temp_max := (rest.map (fun s => s.temp)).foldl max s.temp
        descriptions := s.description :: rest.map (fun s => s.description)
        humidity := s.humidity :: rest.map (fun s => s.humidity)
        wind_speeds := s.wind_speed :: rest.map (fun s => s.wind_speed)
        main_weather := s.weather_main
        icon := s.icon } := by
  show rest.foldl updateAcc (updateAcc (initAcc s) s) = _
  rw [foldl_updateAcc_fields]
  simp [updateAcc, initAcc]

/-! Lemmas about the description-count dict and mode selection. -/

theorem incrEntry_keys (l : List (String × Nat)) (d : String) :
    (incrEntry l d).map Prod.fst =
      if d ∈ l.map Prod.fst then l.map Prod.fst
      else l.map Prod.fst ++ [d] := by
  induction l with
  | nil => simp [incrEntry]
  | cons p rest ih =>
      obtain ⟨d', n⟩ := p
      by_cases h : d' = d
      · subst h
        simp [incrEntry]
      · simp only [incrEntry, if_neg h, List.map_cons, List.mem_cons]
        rw [ih]
        by_cases hmem : d ∈ rest.map Prod.fst
        · rw [if_pos hmem, if_pos (Or.inr hmem)]
        · rw [if_neg hmem, if_neg ?_]
          · simp
          · rintro (h1 | h1)
            · exact h (h1.symm)
            · exact hmem h1

theorem lookup_incrEntry_self (l : List (String × Nat)) (d : String) :
    (incrEntry l d).lookup d = some ((l.lookup d).getD 0 + 1) := by
  induction l with
  | nil => simp [incrEntry, List.lookup]
  | cons p rest ih =>
      obtain ⟨d', n⟩ := p
      by_cases h : d' = d
      · subst h
        simp [incrEntry, List.lookup]
      · have hb : (d == d') = false := by simpa using (Ne.symm h)
        simp [incrEntry, h, List.lookup, hb, ih]

theorem lookup_incrEntry_ne (l : List (String × Nat)) (d k : String)
    (h : k ≠ d) : (incrEntry l d).lookup k = l.lookup k := by
  induction l with
  | nil =>
      have hb : (k == d) = false := by simpa using h
      simp [incrEntry, List.lookup, hb]
  | cons p rest ih =>
      obtain ⟨d', n⟩ := p
      by_cases h2 : d' = d
      · subst h2
        have hb : (k == d') = false := by simpa using h
        simp [incrEntry, List.lookup, hb]
      · cases hb : k == d' <;> simp [incrEntry, h2, List.lookup, hb, ih]

theorem foldl_incrEntry_keys :
    ∀ (l : List String) (acc : List (String × Nat)),
      (l.foldl incrEntry acc).map Prod.fst =
        acc.map Prod.fst ++ newKeys l (acc.map Prod.fst)
  | [], acc => by simp [newKeys]
  | d :: rest, acc => by
      rw [List.foldl_cons, foldl_incrEntry_keys rest (incrEntry acc d),
        incrEntry_keys, newKeys]
      by_cases hmem : d ∈ acc.map Prod.fst
      · rw [if_pos hmem, if_pos hmem]
      · rw [if_neg hmem, if_neg hmem, List.append_assoc]
        rfl

theorem foldl_incrEntry_lookup :
    ∀ (l : List String) (acc : List (String × Nat)) (k : String),
      (l.foldl incrEntry acc).lookup k =
        if l.count k = 0 then acc.lookup k
        else some ((acc.lookup k).getD 0 + l.count k)
  | [], acc, k => by simp
  | d :: rest, acc, k => by
      rw [List.foldl_cons, foldl_incrEntry_lookup rest (incrEntry acc d) k]
      by_cases h : k = d
      · subst h
        rw [lookup_incrEntry_self]
        have hc : (k :: rest).count k = rest.count k + 1 := by
          simp [List.count_cons]
        by_cases h0 : rest.count k = 0
        · simp [h0, hc]
        · rw [if_neg h0, if_neg (by omega), hc]
          simp only [Option.getD_some]
          congr 1
          omega
      · have hb : (k == d) = false := by simpa using h
        rw [lookup_incrEntry_ne _ _ _ h]
        have hc : (d :: rest).count k = rest.count k := by
          simp only [List.count_cons, beq_iff_eq]
          rw [if_neg (fun hdk => h hdk.symm)]
          omega
        rw [hc]

theorem countsList_eq (l : List String) :
    l.foldl incrEntry [] = (dedupFirst l).map (fun d => (d, l.count d)) := by
  have hkeys : (l.foldl incrEntry []).map Prod.fst = dedupFirst l := by
    rw [foldl_incrEntry_keys]
    simp [dedupFirst]
  refine assoc_ext _ _ ?_ ?_ ?_
  · rw [hkeys, List.map_map]
    simp [Function.comp_def]
  · rw [hkeys]
    exact nodup_newKeys _ _
  · intro k
    rw [foldl_incrEntry_lookup, lookup_map_graph]
    by_cases hmem : k ∈ l
    · have hded : k ∈ dedupFirst l := (mem_newKeys _ _ _).mpr ⟨hmem, by simp⟩
      have hc : l.count k ≠ 0 := by
        simpa using (List.count_pos_iff.mpr hmem).ne'
      rw [if_neg hc, if_pos hded]
      simp
    · have hded : k ∉ dedupFirst l := fun h => hmem ((mem_newKeys _ _ _).mp h).1
      have hc : l.count k = 0 := List.count_eq_zero.mpr hmem
      rw [if_pos hc, if_neg hded]
      rfl

theorem argmax_fold (ks : List String) (c : String → Nat) :
    ∀ b : String,
      ((ks.map (fun d => (d, c d))).foldl
          (fun best p => if best.2 < p.2 then p else best) (b, c b)).1 =
        ks.foldl (fun best d => if c best < c d then d else best) b := by
  induction ks with
  | nil => intro b; rfl
  | cons k ks ih =>
      intro b
      simp only [List.map_cons, List.foldl_cons]
      by_cases h : c b < c k
      · simp only [if_pos h]
        exact ih k
      · simp only [if_neg h]
        exact ih b

theorem dedupFirst_cons (x : String) (xs : List String) :
    dedupFirst (x :: xs) = x :: newKeys xs [x] := by
  simp [dedupFirst, newKeys]

theorem mostCommon_eq_specMode (l : List String) (h : l ≠ []) :
    mostCommon l = specMode l := by
  obtain ⟨x, xs, rfl⟩ := List.exists_cons_of_ne_nil h
  have hrw : (x :: xs).foldl incrEntry [] =
      (x, (x :: xs).count x) ::
        (newKeys xs [x]).map (fun d => (d, (x :: xs).count d)) := by
    rw [countsList_eq, dedupFirst_cons, List.map_cons]
  simp only [mostCommon, hrw]
  rw [argmax_fold (newKeys xs [x]) (fun d => (x :: xs).count d) x]
  rw [specMode, dedupFirst_cons]
  simp only [List.headD_cons, List.foldl_cons]
  rw [if_neg (lt_irrefl _)]

/-! Lemmas about rounding and extrema. -/

theorem ratFloor_eq (q : Rat) : (q.floor : Int) = ⌊q⌋ := by
  apply le_antisymm
  · exact Int.le_floor.mpr (Rat.le_floor.mp le_rfl)
  · exact Rat.le_floor.mpr (Int.floor_le q)

theorem le_pyRound (q : Rat) : q.floor ≤ pyRound q := by
  simp only [pyRound]
  split_ifs <;> omega

theorem pyRound_le (q : Rat) : pyRound q ≤ q.floor + 1 := by
  simp only [pyRound]
  split_ifs <;> omega

theorem pyRound_mono {q q' : Rat} (h : q ≤ q') : pyRound q ≤ pyRound q' := by
  have hf : q.floor ≤ q'.floor := by
    rw [ratFloor_eq, ratFloor_eq]
    exact Int.floor_mono h
  rcases lt_or_eq_of_le hf with hlt | heq
  · calc pyRound q ≤ q.floor + 1 := pyRound_le q
      _ ≤ q'.floor := by omega
      _ ≤ pyRound q' := le_pyRound q'
  · have hc : ((q.floor : Int) : Rat) = ((q'.floor : Int) : Rat) := by
      exact_mod_cast congrArg (fun z : Int => (z : Rat)) heq
    have hfr : q - ((q.floor : Int) : Rat) ≤ q' - ((q'.floor : Int) : Rat) := by
      rw [← hc]
      linarith
    simp only [pyRound]
    split_ifs <;> first | omega | linarith

theorem foldl_min_le (l : List Rat) : ∀ x : Rat, l.foldl min x ≤ x := by
  induction l with
  | nil => intro x; exact le_refl x
  | cons y l ih => intro x; exact le_trans (ih (min x y)) (min_le_left x y)

theorem le_foldl_max (l : List Rat) : ∀ x : Rat, x ≤ l.foldl max x := by
  induction l with
  | nil => intro x; exact le_refl x
  | cons y l ih => intro x; exact le_trans (le_max_left x y) (ih (max x y))

theorem listMin_le_listMax (l : List Rat) (h : l ≠ []) :
    listMin l ≤ listMax l := by
  obtain ⟨x, xs, rfl⟩ := List.exists_cons_of_ne_nil h
  exact le_trans (foldl_min_le xs x) (le_foldl_max xs x)

/-- Finalizing the accumulator the loop builds for one day's samples yields
exactly the specification's per-day summary. -/
theorem finalizeDay_buildAccD (s : Sample) (rest : List Sample) :
    finalizeDay (buildAccD (s :: rest)) = daySummary (s :: rest) := by
  rw [buildAccD_cons]
  simp only [finalizeDay, daySummary, DailyForecast.mk.injEq, List.map_cons,
    List.headD_cons, listMin, listMax, mean, and_true, true_and]
  rw [mostCommon_eq_specMode _ (List.cons_ne_nil _ _)]

theorem pyRound_intCast (n : Int) : pyRound ((n : Rat)) = n := by
  simp only [pyRound]
  rw [ratFloor_eq, Int.floor_intCast]
  norm_num

theorem pyRound1_intCast (n : Int) : pyRound1 ((n : Rat)) = (n : Rat) := by
  unfold pyRound1
  rw [show ((n : Rat) * 10) = (((n * 10 : Int) : Rat)) by push_cast; ring,
    pyRound_intCast]
  push_cast
  exact mul_div_cancel_right₀ _ (by norm_num)

theorem filter_dayKey_ne_nil (samples : List Sample) (k : Int)
    (h : k ∈ samples.map dayKey) :
    samples.filter (fun s => dayKey s == k) ≠ [] := by
  obtain ⟨s, hs, hk⟩ := List.mem_map.mp h
  intro hfil
  have hmem : s ∈ samples.filter (fun s => dayKey s == k) :=
    List.mem_filter.mpr ⟨hs, by simpa using hk⟩
  rw [hfil] at hmem
  exact absurd hmem (List.not_mem_nil s)

/-- On a payload with `city` and `list` present, `_format_forecast_data`
returns the record whose forecasts are the per-day specification summaries
of the distinct days in first-encounter order, truncated to 5. -/
theorem format_forecast_val (name country : String) (samples : List Sample) :
    format_forecast_data ⟨some ⟨name, country⟩, some samples⟩ =
      .val { city := name
             country := country
             forecasts := ((dedupFirst (samples.map dayKey)).map
                 (fun k => daySummary
                   (samples.filter (fun s => dayKey s == k)))).take 5 } := by
  have h0 : format_forecast_data ⟨some ⟨name, country⟩, some samples⟩ =
      .val { city := name
             country := country
             forecasts := ((groupDays samples).map (fun p => finalizeDay p.2)).take 5 } := rfl
  rw [h0, groupDays_eq, List.map_map]
  have h1 : (dedupFirst (samples.map dayKey)).map
        ((fun p : Int × DayAcc => finalizeDay p.2) ∘
          (fun k => (k, buildAccD (samples.filter (fun s => dayKey s == k))))) =
      (dedupFirst (samples.map dayKey)).map
        (fun k => daySummary (samples.filter (fun s => dayKey s == k))) := by
    apply List.map_congr_left
    intro k hk
    show finalizeDay (buildAccD (samples.filter (fun s => dayKey s == k))) = _
    have hne := filter_dayKey_ne_nil samples k ((mem_newKeys _ _ _).mp hk).1
    obtain ⟨s0, rest0, hfil⟩ := List.exists_cons_of_ne_nil hne
    rw [hfil]
    exact finalizeDay_buildAccD s0 rest0
  rw [h1]

/-! The claims about the forecast aggregation. -/

/-- C3: on a non-empty sample list the aggregation returns one summary per
distinct calendar day of the samples' timestamps, ordered by first
encounter of the day key, each summarizing exactly the samples of its own
day, truncated to the first 5 days; the number of summaries is the number
of distinct days capped at 5. -/
theorem claim3_daily_grouping (name country : String) (samples : List Sample)
    (h : samples ≠ []) :
    format_forecast_data ⟨some ⟨name, country⟩, some samples⟩ =
      .val { city := name
             country := country
             forecasts := ((dedupFirst (samples.map dayKey)).map
                 (fun k => daySummary
                   (samples.filter (fun s => dayKey s == k)))).take 5 } ∧
    (((dedupFirst (samples.map dayKey)).map
        (fun k => daySummary (samples.filter (fun s => dayKey s == k)))).take 5).length
      = min (dedupFirst (samples.map dayKey)).length 5 := by
  refine ⟨format_forecast_val name country samples, ?_⟩
  simp [List.length_take, Nat.min_comm]

theorem claim3_daily_grouping_witness :
    ([wSample] : List Sample) ≠ [] ∧
    format_forecast_data ⟨some ⟨"London", "GB"⟩, some [wSample]⟩ =
      .val { city := "London"
             country := "GB"
             forecasts := ((dedupFirst (([wSample] : List Sample).map dayKey)).map
                 (fun k => daySummary
                   (([wSample] : List Sample).filter (fun s => dayKey s == k)))).take 5 } :=
  ⟨by simp, (claim3_daily_grouping "London" "GB" [wSample] (by simp)).1⟩

/-- C4: every summary in the aggregation's output is the summary of the
samples of some day: its `temp_min`/`temp_max` are the rounded minimum and
maximum sample temperature, `avg_humidity` the rounded mean humidity,
`avg_wind_speed` the mean wind speed rounded to one decimal, and `icon` the
first sample's icon. -/
theorem claim4_day_aggregates (name country : String) (samples : List Sample)
    (r : ForecastRecord) (f : DailyForecast)
    (hr : format_forecast_data ⟨some ⟨name, country⟩, some samples⟩ = .val r)
    (hf : f ∈ r.forecasts) :
    ∃ k, samples.filter (fun s => dayKey s == k) ≠ [] ∧
      f.temp_min = pyRound (listMin
        ((samples.filter (fun s => dayKey s == k)).map (fun s => s.temp))) ∧
      f.temp_max = pyRound (listMax
        ((samples.filter (fun s => dayKey s == k)).map (fun s => s.temp))) ∧
      f.avg_humidity = pyRound (mean
        ((samples.filter (fun s => dayKey s == k)).map (fun s => s.humidity))) ∧
      f.avg_wind_speed = pyRound1 (mean
        ((samples.filter (fun s => dayKey s == k)).map (fun s => s.wind_speed))) ∧
      f.icon = ((samples.filter (fun s => dayKey s == k)).headD default).icon := by
  rw [format_forecast_val] at hr
  injection hr with h2
  subst h2
  have hf' : f ∈ (dedupFirst (samples.map dayKey)).map
      (fun k => daySummary (samples.filter (fun s => dayKey s == k))) :=
    List.take_subset _ _ hf
  obtain ⟨k, hk, rfl⟩ := List.mem_map.mp hf'
  exact ⟨k, filter_dayKey_ne_nil samples k ((mem_newKeys _ _ _).mp hk).1,
    rfl, rfl, rfl, rfl, rfl⟩

theorem claim4_day_aggregates_witness :
    format_forecast_data ⟨some ⟨"London", "GB"⟩, some [wSample]⟩ = .val wRecord1 ∧
    wDay ∈ wRecord1.forecasts ∧
    (∃ k, ([wSample] : List Sample).filter (fun s => dayKey s == k) ≠ [] ∧
      wDay.temp_min = pyRound (listMin
        ((([wSample] : List Sample).filter (fun s => dayKey s == k)).map (fun s => s.temp))) ∧
      wDay.temp_max = pyRound (listMax
        ((([wSample] : List Sample).filter (fun s => dayKey s == k)).map (fun s => s.temp))) ∧
      wDay.avg_humidity = pyRound (mean
        ((([wSample] : List Sample).filter (fun s => dayKey s == k)).map (fun s => s.humidity))) ∧
      wDay.avg_wind_speed = pyRound1 (mean
        ((([wSample] : List Sample).filter (fun s => dayKey s == k)).map (fun s => s.wind_speed))) ∧
      wDay.icon = ((([wSample] : List Sample).filter (fun s => dayKey s == k)).headD default).icon) := by
  have hr : format_forecast_data ⟨some ⟨"London", "GB"⟩, some [wSample]⟩ = .val wRecord1 := by
    norm_num [format_forecast_data, groupDays, insertSample, updateEntry, initAcc,
      updateAcc, dayKey, finalizeDay, buildAccD, mostCommon, incrEntry,
      List.lookup, mean, wSample, wRecord1, wDay,
      (by decide : Int.fdiv 0 86400 = 0),
      (by rw [show (10:Rat) = ((10:Int):Rat) by norm_num, pyRound_intCast] :
        pyRound (10:Rat) = 10),
      (by rw [show (50:Rat) = ((50:Int):Rat) by norm_num, pyRound_intCast] :
        pyRound (50:Rat) = 50),
      (by rw [show (3:Rat) = ((3:Int):Rat) by norm_num, pyRound1_intCast]; try norm_num :
        pyRound1 (3:Rat) = 3)]
    decide
  exact ⟨hr, by simp [wRecord1], claim4_day_aggregates _ _ _ _ _ hr (by simp [wRecord1])⟩

/-- C5: every summary's description is the most frequent raw description of
its day's samples, ties broken in favour of the first-encountered one, then
title-cased. -/
theorem claim5_mode_description (name country : String) (samples : List Sample)
    (r : ForecastRecord) (f : DailyForecast)
    (hr : format_forecast_data ⟨some ⟨name, country⟩, some samples⟩ = .val r)
    (hf : f ∈ r.forecasts) :
    ∃ k, samples.filter (fun s => dayKey s == k) ≠ [] ∧
      f.description = pyTitle (specMode
        ((samples.filter (fun s => dayKey s == k)).map (fun s => s.description))) := by
  rw [format_forecast_val] at hr
  injection hr with h2
  subst h2
  have hf' : f ∈ (dedupFirst (samples.map dayKey)).map
      (fun k => daySummary (samples.filter (fun s => dayKey s == k))) :=
    List.take_subset _ _ hf
  obtain ⟨k, hk, rfl⟩ := List.mem_map.mp hf'
  exact ⟨k, filter_dayKey_ne_nil samples k ((mem_newKeys _ _ _).mp hk).1, rfl⟩

theorem claim5_mode_description_witness :
    format_forecast_data ⟨some ⟨"London", "GB"⟩,
        some [wSample, wSampleB, wSampleC]⟩ = .val wRecord3 ∧
    wDay3 ∈ wRecord3.forecasts ∧
    (∃ k, ([wSample, wSampleB, wSampleC] : List Sample).filter
        (fun s => dayKey s == k) ≠ [] ∧
      wDay3.description = pyTitle (specMode
        ((([wSample, wSampleB, wSampleC] : List Sample).filter
          (fun s => dayKey s == k)).map (fun s => s.description)))) ∧
    wDay3.description = "Broken Clouds" := by
  have hr : format_forecast_data ⟨some ⟨"London", "GB"⟩,
      some [wSample, wSampleB, wSampleC]⟩ = .val wRecord3 := by
    norm_num [format_forecast_data, groupDays, insertSample, updateEntry, initAcc,
      updateAcc, dayKey, finalizeDay, buildAccD, mostCommon, incrEntry,
      List.lookup, mean, wSample, wSampleB, wSampleC, wRecord3, wDay3,
      (by decide : Int.fdiv 0 86400 = 0),
      (by decide : Int.fdiv 10800 86400 = 0),
      (by decide : Int.fdiv 21600 86400 = 0),
      (by rw [show (10:Rat) = ((10:Int):Rat) by norm_num, pyRound_intCast] :
        pyRound (10:Rat) = 10),
      (by rw [show (12:Rat) = ((12:Int):Rat) by norm_num, pyRound_intCast] :
        pyRound (12:Rat) = 12),
      (by rw [show (55:Rat) = ((55:Int):Rat) by norm_num, pyRound_intCast] :
        pyRound (55:Rat) = 55),
      (by rw [show (4:Rat) = ((4:Int):Rat) by norm_num, pyRound1_intCast]; try norm_num :
        pyRound1 (4:Rat) = 4)]
    decide
  exact ⟨hr, by simp [wRecord3],
    claim5_mode_description _ _ _ _ _ hr (by simp [wRecord3]), rfl⟩

/-- C6 (counterexample): on a payload whose sample list is empty (with city
information present) the aggregation does not return the failure result
(the empty dict); it returns a populated record with an empty forecasts
list. -/
theorem claim6_empty_list_counterexample :
    format_forecast_data ⟨some ⟨"London", "GB"⟩, some []⟩ =
      .val { city := "London", country := "GB", forecasts := [] } ∧
    format_forecast_data ⟨some ⟨"London", "GB"⟩, some []⟩ ≠ .emptyDict :=
  ⟨rfl, by decide⟩

/-- C6 (amended): on a payload whose sample list is empty, the aggregation
returns a result containing no summaries — but it is the ordinary success
record carrying the city and country with an empty forecasts list, not the
failure result (the empty dict, produced only when the `city` or `list` key
is missing). -/
theorem claim6_empty_list_result (name country : String) :
    format_forecast_data ⟨some ⟨name, country⟩, some []⟩ =
      .val { city := name, country := country, forecasts := [] } := rfl

/-- C7: every summary in the aggregation's output satisfies
`temp_min ≤ temp_max` (after rounding). -/
theorem claim7_min_le_max (name country : String) (samples : List Sample)
    (r : ForecastRecord) (f : DailyForecast)
    (hr : format_forecast_data ⟨some ⟨name, country⟩, some samples⟩ = .val r)
    (hf : f ∈ r.forecasts) : f.temp_min ≤ f.temp_max := by
  rw [format_forecast_val] at hr
  injection hr with h2
  subst h2
  have hf' : f ∈ (dedupFirst (samples.map dayKey)).map
      (fun k => daySummary (samples.filter (fun s => dayKey s == k))) :=
    List.take_subset _ _ hf
  obtain ⟨k, hk, rfl⟩ := List.mem_map.mp hf'
  have hne := filter_dayKey_ne_nil samples k ((mem_newKeys _ _ _).mp hk).1
  show pyRound (listMin _) ≤ pyRound (listMax _)
  apply pyRound_mono
  apply listMin_le_listMax
  simpa using hne

theorem claim7_min_le_max_witness :
    format_forecast_data ⟨some ⟨"London", "GB"⟩, some [wSample]⟩ = .val wRecord1 ∧
    wDay ∈ wRecord1.forecasts ∧ wDay.temp_min ≤ wDay.temp_max := by
  have hr : format_forecast_data ⟨some ⟨"London", "GB"⟩, some [wSample]⟩ = .val wRecord1 := by
    norm_num [format_forecast_data, groupDays, insertSample, updateEntry, initAcc,
      updateAcc, dayKey, finalizeDay, buildAccD, mostCommon, incrEntry,
      List.lookup, mean, wSample, wRecord1, wDay,
      (by decide : Int.fdiv 0 86400 = 0),
      (by rw [show (10:Rat) = ((10:Int):Rat) by norm_num, pyRound_intCast] :
        pyRound (10:Rat) = 10),
      (by rw [show (50:Rat) = ((50:Int):Rat) by norm_num, pyRound_intCast] :
        pyRound (50:Rat) = 50),
      (by rw [show (3:Rat) = ((3:Int):Rat) by norm_num, pyRound1_intCast]; try norm_num :
        pyRound1 (3:Rat) = 3)]
    decide
  exact ⟨hr, by simp [wRecord1], claim7_min_le_max _ _ _ _ _ hr (by simp [wRecord1])⟩

/-- C8 (counterexample): a body in which a required field is missing (here
`name`, and `weather[0]` as well since the weather array is empty) on which
`_format_current_weather` does not return the empty/failure result: the
`data['weather'][0]` access raises an uncaught `IndexError`. -/
theorem claim8_missing_field_counterexample :
    missingRequiredB ⟨none, some ⟨some 10, some 9, some 50, some 1000⟩, some [],
        none, none, none, some ⟨some "GB", some 1, some 2⟩, some 0⟩ = true ∧
    format_current_weather ⟨none, some ⟨some 10, some 9, some 50, some 1000⟩, some [],
        none, none, none, some ⟨some "GB", some 1, some 2⟩, some 0⟩ =
      .error .indexError ∧
    format_current_weather ⟨none, some ⟨some 10, some 9, some 50, some 1000⟩, some [],
        none, none, none, some ⟨some "GB", some 1, some 2⟩, some 0⟩ ≠
      .ok .emptyDict :=
  ⟨rfl, rfl, fun h => nomatch h⟩

/-- C8 (amended): when a required current-weather field is missing from the
body as an absent key, and the weather array — when present — is non-empty,
`_format_current_weather` catches the `KeyError` and returns the
empty/failure result; an empty weather array instead raises an uncaught
`IndexError`. -/
theorem claim8_missing_key_empty (d : CurrentBody)
    (hm : missingRequiredB d = true)
    (hw : d.weather = none ∨ ∃ w ws, d.weather = some (w :: ws)) :
    format_current_weather d = .ok .emptyDict := by
  rcases d with ⟨dname, dmain, dweather, dwind, dclouds, dvis, dsys, dtz⟩
  unfold format_current_weather
  suffices hsuf : format_current_weather_tryBody
      ⟨dname, dmain, dweather, dwind, dclouds, dvis, dsys, dtz⟩ =
        .error .keyError by rw [hsuf]
  rcases dmain with _ | ⟨mt, mf, mh, mp⟩
  · rfl
  rcases hw with hw | ⟨w, ws, hw⟩ <;> simp only at hw <;> subst hw
  · rfl
  rcases w with ⟨wm, wd, wi⟩
  rcases dname with _ | nm
  · rfl
  rcases dsys with _ | ⟨sc, sr, ssn⟩
  · rfl
  rcases sc with _ | co
  · rfl
  rcases mt with _ | t
  · rfl
  rcases mf with _ | fl
  · rfl
  rcases wd with _ | de
  · rfl
  rcases wi with _ | ic
  · rfl
  rcases mh with _ | hu
  · rfl
  rcases mp with _ | pr
  · rfl
  rcases sr with _ | sr'
  · rfl
  rcases ssn with _ | sn
  · rfl
  rcases dtz with _ | tz
  · rfl
  simp [missingRequiredB] at hm

theorem claim8_missing_key_empty_witness :
    missingRequiredB emptyCurrentBody = true ∧
    (emptyCurrentBody.weather = none ∨
      ∃ w ws, emptyCurrentBody.weather = some (w :: ws)) ∧
    format_current_weather emptyCurrentBody = .ok .emptyDict :=
  ⟨rfl, Or.inl rfl, claim8_missing_key_empty emptyCurrentBody rfl (Or.inl rfl)⟩

end WeatherBot
